import Mathlib

/-!
Verification development for the MasterPi AI repository: the job pipeline
orchestrator, the chunk splitter, the progress stream consumer, the pricing
cards, the API client and the index page state machine, embedded shallowly
in Lean and checked against the repository's specification.

Where a component's code is present in the repository sources (the React
components, the API client) the definitions below are direct translations
of that code.  Components of the backend pipeline whose code is not among
the sources (the orchestrator, the splitter) are modelled from the
specification and the repository's pipeline process document, and are
marked as such in their doc comments.
-/

namespace MasterPi

/-! Section: Chunk Splitter (spec section 4.1)

The splitter lives in the backend services (app/services/translator.py and
app/services/tts.py), which are absent from the sources; it is modelled
from the specification's contract for
split(content, max_size, boundary_class). -/

/-- Boundary classes recognised by the splitter: paragraph breaks for text
being translated, sentence-ending punctuation for text being synthesised. -/
inductive BoundaryClass
  | paragraph
  | sentence
deriving DecidableEq

/-- Modelled from the spec: the characters that close a boundary of each
class (a paragraph break is a newline; a sentence boundary is
sentence-ending punctuation). -/
def breakChar : BoundaryClass → Char → Bool
  | .paragraph, c => c == '\n'
  | .sentence, c => c == '.' || c == '!' || c == '?'

/-- Modelled from the spec: the next coarser boundary class used as a
fallback; paragraph is the coarsest class so it has none and the splitter
falls through to the hard size limit. -/
def coarserClass : BoundaryClass → Option BoundaryClass
  | .paragraph => none
  | .sentence => some .paragraph

/-- Largest position k with 1 ≤ k ≤ m such that the character just before
position k satisfies p, or none when no such position exists.  Positions
beyond the end of the content never match because the default character is
not a break character for any class. -/
def findBreak (p : Char → Bool) (cs : List Char) : Nat → Option Nat
  | 0 => none
  | m + 1 => if p (cs.getD m ' ') then some (m + 1) else findBreak p cs m

/-- Modelled from the spec: the split position for the next chunk when the
remaining content exceeds the size limit: the last boundary of the
requested class within the limit, else the last boundary of the next
coarser class, else the hard size limit itself (taken as at least one so a
chunk is never empty). -/
def chunkLen (cs : List Char) (m : Nat) (cls : BoundaryClass) : Nat :=
  match findBreak (breakChar cls) cs m with
  | some k => k
  | none =>
    match coarserClass cls with
    | some c2 =>
      match findBreak (breakChar c2) cs m with
      | some k => k
      | none => max m 1
    | none => max m 1

theorem findBreak_pos (p : Char → Bool) (cs : List Char) :
    ∀ m k, findBreak p cs m = some k → 0 < k := by
  intro m
  induction m with
  | zero => intro k h; simp [findBreak] at h
  | succ n ih =>
    intro k h
    rw [findBreak] at h
    split at h
    · simp at h
      omega
    · exact ih k h

theorem chunkLen_pos (cs : List Char) (m : Nat) (cls : BoundaryClass) :
    0 < chunkLen cs m cls := by
  unfold chunkLen
  split
  · exact findBreak_pos _ _ _ _ (by assumption)
  · split
    · split
      · exact findBreak_pos _ _ _ _ (by assumption)
      · omega
    · omega

/-- Modelled from the spec: split(content, max_size, boundary_class)
divides content into ordered segments, each cut at the requested boundary
class when one exists within the size limit, falling back to the coarser
class and then to the hard size limit; empty content yields an empty plan
and content within the limit a single segment. -/
def split (m : Nat) (cls : BoundaryClass) (cs : List Char) : List (List Char) :=
  if _h1 : cs.isEmpty then []
  else if _h2 : cs.length ≤ m then [cs]
  else cs.take (chunkLen cs m cls) :: split m cls (cs.drop (chunkLen cs m cls))
termination_by cs.length
decreasing_by
  simp only [List.length_drop]
  have h3 := chunkLen_pos cs m cls
  omega

theorem split_join_aux (m : Nat) (cls : BoundaryClass) :
    ∀ n cs, List.length cs ≤ n → (split m cls cs).flatten = cs := by
  intro n
  induction n with
  | zero =>
    intro cs h
    have hnil : cs = [] := List.eq_nil_of_length_eq_zero (Nat.le_zero.mp h)
    subst hnil
    rw [split]
    simp
  | succ n ih =>
    intro cs h
    rw [split]
    split
    · next h1 =>
      have hnil : cs = [] := List.isEmpty_iff.mp h1
      simp [hnil]
    · split
      · simp
      · next h1 h2 =>
        simp only [List.flatten_cons]
        rw [ih (cs.drop (chunkLen cs m cls))
          (by simp only [List.length_drop]
              have h3 := chunkLen_pos cs m cls
              omega)]
        exact List.take_append_drop _ cs

/-- One chunk of a ChunkPlan: the payload, its index, and the overlap
context injected from the previous segment. -/
structure Chunk where
  payload : List Char
  index : Nat
  overlap_context : List Char
deriving DecidableEq

/-- Trailing slice of at most ov characters of a segment. -/
def tailSlice (ov : Nat) (l : List Char) : List Char := l.drop (l.length - ov)

/-- Modelled from the spec: attach indexes and the trailing overlap slice of
the previous segment to each segment of a split. -/
def attachContext (ov : Nat) : List (List Char) → Nat → List Char → List Chunk
  | [], _, _ => []
  | p :: rest, i, prev =>
    ⟨p, i, if i = 0 then [] else tailSlice ov prev⟩ :: attachContext ov rest (i + 1) p

/-- Modelled from the spec: the full splitter contract producing a
ChunkPlan, an ordered sequence of indexed chunks carrying overlap context. -/
def chunkPlan (m ov : Nat) (cls : BoundaryClass) (cs : List Char) : List Chunk :=
  attachContext ov (split m cls cs) 0 []

theorem attachContext_payloads (ov : Nat) :
    ∀ ps i prev, (attachContext ov ps i prev).map Chunk.payload = ps := by
  intro ps
  induction ps with
  | nil => intro i prev; rfl
  | cons p rest ih => intro i prev; simp [attachContext, ih]

/-- C2: for every content body and every positive maximum size,
concatenating the chunk payloads of the split, with the injected overlap
context excluded, reproduces the content exactly, byte for byte. -/
theorem split_roundtrip (cs : List Char) (m ov : Nat) (cls : BoundaryClass)
    (hm : 0 < m) :
    ((chunkPlan m ov cls cs).map Chunk.payload).flatten = cs := by
  rw [chunkPlan, attachContext_payloads]
  exact split_join_aux m cls cs.length cs (Nat.le_refl _)

/-- Witness for split_roundtrip at concrete content and size. -/
theorem split_roundtrip_witness :
    0 < 4 ∧
      ((chunkPlan 4 2 BoundaryClass.paragraph
          ("ab\ncdefg".toList)).map Chunk.payload).flatten = "ab\ncdefg".toList :=
  ⟨by decide, split_roundtrip _ 4 2 BoundaryClass.paragraph (by decide)⟩

/-! Section: Pipeline Orchestrator (spec sections 4.3 and 4.5)

The orchestrator (app/services/pipeline.py) is absent from the sources; it
is modelled from the specification and the repository's pipeline process
document: eight steps run in order as a background task, each step updates
the job record and publishes a progress event, any failure marks the job
failed and stops iteration, and the cloned voice is always revoked in the
finally block of the execution unit. -/

/-- The job states of the pipeline state machine. -/
inductive JobStatus
  | queued
  | downloading
  | transcribing
  | extracting_voice
  | cloning_voice
  | translating
  | synthesizing
  | concatenating
  | completed
  | failed
deriving DecidableEq

/-- An immutable progress snapshot published once per stage transition. -/
structure PipeEvent where
  status : JobStatus
  progress_pct : Nat
  current_stage : String
  error : Option String
deriving DecidableEq

/-- The mutable job record owned by the execution unit. -/
structure JobRecord where
  status : JobStatus
  progress_pct : Nat
  current_stage : String
  error : Option String
deriving DecidableEq

/-- A pipeline stage: the status it enters, its human-readable label, and
the progress percentage the job reaches when the stage runs. -/
structure Stage where
  status : JobStatus
  label : String
  pct : Nat
deriving DecidableEq

/-- Modelled from the spec: the fixed ordered stage list of the pipeline
with the progress percentages of the pipeline process document. -/
def pipelineStages : List Stage :=
  [⟨.downloading, "Downloading audio", 5⟩,
   ⟨.transcribing, "Transcribing speech", 20⟩,
   ⟨.extracting_voice, "Extracting voice sample", 35⟩,
   ⟨.cloning_voice, "Cloning voice", 45⟩,
   ⟨.translating, "Translating text", 60⟩,
   ⟨.synthesizing, "Synthesizing speech", 75⟩,
   ⟨.concatenating, "Concatenating audio", 90⟩]

/-- What a single stage execution does: succeed, fail with a typed error
message, or crash the execution unit itself mid-stage. -/
inductive StageOutcome
  | ok
  | err (msg : String)
  | crash
deriving DecidableEq

/-- Observable actions of the execution unit: publishing a progress event
to the broadcaster, and running the registered compensating cleanup. -/
inductive PipeAction
  | emit (e : PipeEvent)
  | cleanup
deriving DecidableEq

/-- Whether an action is the compensating cleanup. -/
def PipeAction.isCleanup : PipeAction → Bool
  | .cleanup => true
  | _ => false

/-- Head outcome of an outcome list, defaulting to success when the list is
exhausted (a run with fewer listed outcomes than stages succeeds from there
on). -/
def headOutcome : List StageOutcome → StageOutcome × List StageOutcome
  | [] => (.ok, [])
  | o :: rest => (o, rest)

/-- The initial job record at submission. -/
def initJob : JobRecord := ⟨.queued, 0, "Queued", none⟩

/-- Modelled from the spec: stage iteration of the orchestrator.  Each
successful stage atomically updates the job record and publishes the
resulting event; a failing stage marks the job failed with the progress
frozen at its last reached value, publishes the terminal event and stops;
a crash of the execution unit stops iteration without a terminal event;
when all stages succeed the job is marked completed at 100 and the terminal
event is published. -/
def runStages : List Stage → List StageOutcome → JobRecord →
    JobRecord × List PipeAction
  | [], _, j =>
    let j2 : JobRecord := ⟨.completed, 100, j.current_stage, none⟩
    (j2, [.emit ⟨j2.status, j2.progress_pct, j2.current_stage, j2.error⟩])
  | st :: rest, outs, j =>
    match headOutcome outs with
    | (.ok, outs2) =>
      let j2 : JobRecord := ⟨st.status, st.pct, st.label, none⟩
      let r := runStages rest outs2 j2
      (r.1, .emit ⟨st.status, st.pct, st.label, none⟩ :: r.2)
    | (.err m, _) =>
      let j2 : JobRecord := ⟨.failed, j.progress_pct, st.label, some m⟩
      (j2, [.emit ⟨.failed, j.progress_pct, st.label, some m⟩])
    | (.crash, _) => (j, [])

/-- Modelled from the spec: one full job execution: iterate the stages and
then, as the finally block of the execution unit, run the compensating
cleanup (revoking the cloned voice) unconditionally once iteration ends. -/
def execJob (outs : List StageOutcome) : JobRecord × List PipeAction :=
  let r := runStages pipelineStages outs initJob
  (r.1, r.2 ++ [.cleanup])

theorem runStages_no_cleanup :
    ∀ (sts : List Stage) (outs : List StageOutcome) (j : JobRecord),
      (runStages sts outs j).2.countP (fun a => PipeAction.isCleanup a) = 0 := by
  intro sts
  induction sts with
  | nil => intro outs j; simp [runStages, List.countP_cons, PipeAction.isCleanup]
  | cons st rest ih =>
    intro outs j
    rw [runStages]
    rcases houts : headOutcome outs with ⟨o, outs2⟩
    cases o with
    | ok =>
      simp only [List.countP_cons, ih]
      simp [PipeAction.isCleanup]
    | err m => simp [List.countP_cons, PipeAction.isCleanup]
    | crash => simp

/-- C1: for every job, whatever the outcome of every stage (success,
failure at any index, or a crash of the execution unit mid-stage), the
compensating cleanup action registered at pipeline construction runs
exactly once when stage iteration ends. -/
theorem cleanup_exactly_once (outs : List StageOutcome) :
    (execJob outs).2.countP (fun a => PipeAction.isCleanup a) = 1 := by
  rw [execJob]
  simp only [List.countP_append, runStages_no_cleanup]
  simp [List.countP_cons, PipeAction.isCleanup]

/-- The progress percentages carried by the published events of a run. -/
def progressSeq (acts : List PipeAction) : List Nat :=
  acts.filterMap (fun a =>
    match a with
    | .emit e => some e.progress_pct
    | .cleanup => none)

theorem runStages_all_ok :
    ∀ (sts : List Stage) (outs : List StageOutcome) (j : JobRecord),
      (∀ o ∈ outs, o = .ok) → runStages sts outs j = runStages sts [] j := by
  intro sts
  induction sts with
  | nil => intro outs j _; rfl
  | cons st rest ih =>
    intro outs j hok
    cases outs with
    | nil => rfl
    | cons o outs2 =>
      have ho : o = .ok := hok o (List.mem_cons_self o outs2)
      subst ho
      rw [runStages, runStages]
      simp only [headOutcome]
      rw [ih outs2 _ (fun o ho2 => hok o (List.mem_cons_of_mem _ ho2))]

/-- C4: for a successful job the published progress percentages end at 100,
and every order-preserving sub-delivery of them that a subscriber can
observe is non-decreasing with every value an integer at most 100. -/
theorem progress_monotone (outs : List StageOutcome)
    (hok : ∀ o ∈ outs, o = .ok) :
    (progressSeq (execJob outs).2).getLast? = some 100 ∧
      ∀ l : List Nat, List.Sublist l (progressSeq (execJob outs).2) →
        l.Chain' (· ≤ ·) ∧ ∀ p ∈ l, p ≤ 100 := by
  have hseq : progressSeq (execJob outs).2 = [5, 20, 35, 45, 60, 75, 90, 100] := by
    simp only [execJob]
    rw [runStages_all_ok pipelineStages outs initJob hok]
    rfl
  rw [hseq]
  refine ⟨rfl, ?_⟩
  intro l hl
  have hpair : l.Pairwise (· ≤ ·) :=
    List.Pairwise.sublist hl (by decide)
  refine ⟨List.chain'_iff_pairwise.mpr hpair, ?_⟩
  intro p hp
  have hmem := hl.subset hp
  have hall : ∀ q ∈ [5, 20, 35, 45, 60, 75, 90, 100], q ≤ 100 := by decide
  exact hall p hmem

/-- Witness for progress_monotone: the all-successful run with the full
delivered sequence. -/
theorem progress_monotone_witness :
    (progressSeq (execJob []).2).getLast? = some 100 ∧
      (progressSeq (execJob []).2).Chain' (· ≤ ·) := by
  have h := progress_monotone [] (by intro o ho; cases ho)
  exact ⟨h.1, (h.2 _ (List.Sublist.refl _)).1⟩

/-! Section: Progress stream consumer (src/ui/src/components/CirclePlayer.tsx)

Direct translation of the CirclePlayer component's SSE subscription:
it listens for progress and timeout events on the per-job event source,
closes the source on a terminal or timeout event, and renders the progress
percentage clamped to 100. -/

/-- The progress payload carried by one SSE progress event, mirroring the
SSEProgress interface of the API client. -/
structure SSEProgress where
  status : String
  progress_pct : Int
  current_stage : String
  error : Option String
deriving DecidableEq

/-- The phases of the CirclePlayer component. -/
inductive PlayerPhase
  | processing
  | ready
  | error
deriving DecidableEq

/-- The component state relevant to the subscription: whether the event
source is still open, the phase, and the progress, stage and error state
hooks. -/
structure PlayerState where
  sourceOpen : Bool
  phase : PlayerPhase
  progress : Int
  stage : String
  errorMsg : Option String
deriving DecidableEq

/-- The messages the event source can deliver to the component: a progress
event, a timeout event, or a connection-level fault (the onerror path). -/
inductive SSEMsg
  | progressEvt (d : SSEProgress)
  | timeoutEvt
  | connFault
deriving DecidableEq

/-- Actions the component can perform on the outside world: closing the
event source, or issuing an HTTP request against the backend. -/
inductive ClientAction
  | closeSource
  | httpRequest (method : String) (path : String)
deriving DecidableEq

/-- Whether a client action can mutate or cancel a backend job: only a
non-GET HTTP request can; closing the event source cannot. -/
def ClientAction.mutatesJob : ClientAction → Bool
  | .closeSource => false
  | .httpRequest m _ => m != "GET"

/-- JavaScript falsy-or on a nullable string, as in
data.error or a fallback: null and the empty string fall through. -/
def jsOr (v : Option String) (d : String) : String :=
  match v with
  | some s => if s = "" then d else s
  | none => d

/-- The initial component state on mount. -/
def initPlayer : PlayerState := ⟨true, .processing, 0, "Starting...", none⟩

/-- Translation of the CirclePlayer event handlers.  A closed event source
delivers nothing.  A progress event stores the reported percentage and
stage; a completed status closes the source and readies the player; a
failed status closes the source and surfaces the event's error field (with
its fallback text) as data; a timeout event closes the source and shows
the timeout notice; a connection fault closes the source and shows the
connection-lost notice.  The handlers close the event source and set React
state only; they issue no HTTP request. -/
def playerStep (s : PlayerState) (msg : SSEMsg) : PlayerState × List ClientAction :=
  if s.sourceOpen = false then (s, [])
  else
    match msg with
    | .progressEvt d =>
      let s1 := { s with progress := d.progress_pct, stage := d.current_stage }
      if d.status = "completed" then
        ({ s1 with sourceOpen := false, phase := .ready }, [.closeSource])
      else if d.status = "failed" then
        ({ s1 with
            sourceOpen := false,
            phase := .error,
            errorMsg := some (jsOr d.error "Pipeline failed") }, [.closeSource])
      else (s1, [])
    | .timeoutEvt =>
      ({ s with
          sourceOpen := false,
          phase := .error,
          errorMsg := some "Connection timed out" }, [.closeSource])
    | .connFault =>
      ({ s with
          sourceOpen := false,
          phase := .error,
          errorMsg := some "Connection lost" }, [.closeSource])

/-- C5: receiving an event with status completed or failed terminates the
subscription: the event source is closed, no later message is processed,
and a stage failure reaches the observer only as the error field of that
terminal event, surfaced as data, never through the connection-fault
path. -/
theorem terminal_event_ends_subscription (s : PlayerState) (d : SSEProgress)
    (hopen : s.sourceOpen = true)
    (hterm : d.status = "completed" ∨ d.status = "failed") :
    (playerStep s (.progressEvt d)).1.sourceOpen = false ∧
      (∀ msg, playerStep (playerStep s (.progressEvt d)).1 msg =
        ((playerStep s (.progressEvt d)).1, [])) ∧
      (d.status = "failed" →
        (playerStep s (.progressEvt d)).1.phase = .error ∧
          (playerStep s (.progressEvt d)).1.errorMsg =
            some (jsOr d.error "Pipeline failed")) := by
  rcases hterm with hc | hf
  · have hnf : d.status ≠ "failed" := by rw [hc]; decide
    refine ⟨?_, ?_, ?_⟩
    · simp [playerStep, hopen, hc]
    · intro msg
      simp [playerStep, hopen, hc]
    · intro hf2
      exact absurd hf2 hnf
  · have hnc : d.status ≠ "completed" := by rw [hf]; decide
    refine ⟨?_, ?_, ?_⟩
    · simp [playerStep, hopen, hf, hnc]
    · intro msg
      simp [playerStep, hopen, hf, hnc]
    · intro _
      constructor
      · simp [playerStep, hopen, hf, hnc]
      · simp [playerStep, hopen, hf, hnc]

/-- Witness for terminal_event_ends_subscription at a concrete failed
event. -/
theorem terminal_event_ends_subscription_witness :
    (playerStep initPlayer
        (.progressEvt ⟨"failed", 50, "Cloning voice", some "boom"⟩)).1.sourceOpen
        = false ∧
      (playerStep initPlayer
          (.progressEvt ⟨"failed", 50, "Cloning voice", some "boom"⟩)).1.errorMsg
        = some "boom" := by
  have h := terminal_event_ends_subscription initPlayer
    ⟨"failed", 50, "Cloning voice", some "boom"⟩ (by decide) (Or.inr rfl)
  exact ⟨h.1, by rw [(h.2.2 rfl).2]; decide⟩

/-- C6: a timeout notification delivered on an open subscription closes the
event source, shows the timeout notice to the observer, processes no later
message, and performs no action that could cancel or mutate the underlying
job (the handler's only external action is closing the event source). -/
theorem timeout_ends_subscription_preserves_job (s : PlayerState)
    (hopen : s.sourceOpen = true) :
    (playerStep s .timeoutEvt).1.sourceOpen = false ∧
      (playerStep s .timeoutEvt).1.phase = .error ∧
      (playerStep s .timeoutEvt).1.errorMsg = some "Connection timed out" ∧
      (∀ msg, playerStep (playerStep s .timeoutEvt).1 msg =
        ((playerStep s .timeoutEvt).1, [])) ∧
      (playerStep s .timeoutEvt).2 = [.closeSource] ∧
      (∀ a ∈ (playerStep s .timeoutEvt).2, a.mutatesJob = false) := by
  refine ⟨?_, ?_, ?_, ?_, ?_, ?_⟩
  · simp [playerStep, hopen]
  · simp [playerStep, hopen]
  · simp [playerStep, hopen]
  · intro msg
    simp [playerStep, hopen]
  · simp [playerStep, hopen]
  · intro a ha
    simp [playerStep, hopen] at ha
    subst ha
    rfl

/-- Witness for timeout_ends_subscription_preserves_job at the initial
state. -/
theorem timeout_ends_subscription_preserves_job_witness :
    (playerStep initPlayer .timeoutEvt).1.sourceOpen = false ∧
      (playerStep initPlayer .timeoutEvt).2 = [.closeSource] := by
  have h := timeout_ends_subscription_preserves_job initPlayer (by decide)
  exact ⟨h.1, h.2.2.2.2.1⟩

/-- The percentage the component renders while processing: the stored
progress clamped with min to 100 (Math.round is the identity on the
integer progress_pct values). -/
def renderedPct (s : PlayerState) : Int := min s.progress 100

/-- C10: after any progress event carrying percentage p is processed on an
open subscription, the rendered percentage is min p 100 and so never
exceeds 100, even when the event reports more than 100. -/
theorem rendered_progress_clamped (s : PlayerState) (d : SSEProgress)
    (hopen : s.sourceOpen = true) :
    renderedPct (playerStep s (.progressEvt d)).1 = min d.progress_pct 100 ∧
      renderedPct (playerStep s (.progressEvt d)).1 ≤ 100 := by
  have hprog : (playerStep s (.progressEvt d)).1.progress = d.progress_pct := by
    by_cases hc : d.status = "completed"
    · simp [playerStep, hopen, hc]
    · by_cases hf : d.status = "failed"
      · simp [playerStep, hopen, hc, hf]
      · simp [playerStep, hopen, hc, hf]
  constructor
  · rw [renderedPct, hprog]
  · rw [renderedPct, hprog]
    exact min_le_right _ _

/-- Witness for rendered_progress_clamped at an event reporting 150. -/
theorem rendered_progress_clamped_witness :
    renderedPct (playerStep initPlayer
        (.progressEvt ⟨"downloading", 150, "Downloading audio", none⟩)).1 = 100 := by
  have h := rendered_progress_clamped initPlayer
    ⟨"downloading", 150, "Downloading audio", none⟩ (by decide)
  rw [h.1]
  decide

/-! Section: Pricing cards (src/ui/src/components/PricingCards.tsx)

Direct translation of the tier cost computations of the PricingCards
component.  Costs are modelled as rationals. -/

/-- The per-tier cost record of the backend, mirroring the TierCost
interface of the API client. -/
structure TierCost where
  tier : String
  duration_minutes : ℚ
  transcription_cost : ℚ
  translation_cost : ℚ
  tts_cost : ℚ
  stripe_fee : ℚ
  total_cost : ℚ
deriving DecidableEq

/-- The margin computed by subtraction in PricingCards:
total_cost - stripe_fee - transcription_cost - translation_cost - tts_cost. -/
def margin (t : TierCost) : ℚ :=
  t.total_cost - t.stripe_fee - t.transcription_cost - t.translation_cost - t.tts_cost

/-- The numeric value formatted on the marginDisplay path of PricingCards
(when the margin is positive): the margin minus zero times the cost sum. -/
def marginDisplayVal (t : TierCost) : ℚ :=
  margin t - (t.transcription_cost + t.translation_cost + t.tts_cost) * 0

/-- The subtotal recomputed by PricingCards. -/
def subtotal (t : TierCost) : ℚ :=
  t.transcription_cost + t.translation_cost + t.tts_cost

/-- The margin rendered by PricingCards: subtotal times 0.25. -/
def marginAmt (t : TierCost) : ℚ := subtotal t * (25 / 100)

/-- A concrete tier cost input on which the two margin computations of
PricingCards disagree. -/
def tierEx : TierCost := ⟨"full", 10, 1, 1, 1, 1, 10⟩

/-- Counterexample for C3: at the concrete input tierEx the margin obtained
by subtraction (the marginDisplay path) is 6, while the separately rendered
marginAmt is 0.75, so the two computations are not equal for every input. -/
theorem margin_recomputation_disagrees :
    marginDisplayVal tierEx ≠ marginAmt tierEx := by
  norm_num [marginDisplayVal, margin, marginAmt, subtotal, tierEx]

/-- C3 (amended): the two margin computations of PricingCards agree exactly
on tier costs priced by the backend cost model, in which the total is the
cost subtotal plus a 25 percent margin plus the Stripe fee. -/
theorem margin_consistent_on_priced_tiers (t : TierCost)
    (hmodel : t.total_cost = subtotal t + subtotal t * (25 / 100) + t.stripe_fee) :
    marginDisplayVal t = marginAmt t := by
  simp only [marginDisplayVal, margin, marginAmt, subtotal] at *
  rw [hmodel]
  ring

/-- Witness for margin_consistent_on_priced_tiers at a concretely priced
tier. -/
theorem margin_consistent_on_priced_tiers_witness :
    (TierCost.total_cost ⟨"short", 5, 2, 1, 1, 1 / 2, 11 / 2⟩ =
        subtotal ⟨"short", 5, 2, 1, 1, 1 / 2, 11 / 2⟩ +
          subtotal ⟨"short", 5, 2, 1, 1, 1 / 2, 11 / 2⟩ * (25 / 100) + 1 / 2) ∧
      marginDisplayVal ⟨"short", 5, 2, 1, 1, 1 / 2, 11 / 2⟩ =
        marginAmt ⟨"short", 5, 2, 1, 1, 1 / 2, 11 / 2⟩ :=
  ⟨by norm_num [subtotal],
    margin_consistent_on_priced_tiers _ (by norm_num [subtotal])⟩

/-- Translation of the tierPercent helper of PricingCards: the percentage
label rendered next to each tier's duration. -/
def tierPercent (tier : String) : String :=
  if tier = "short" then "12%"
  else if tier = "medium" then "40%"
  else "100%"

/-- Modelled from the spec: the tier duration fraction applied by the
backend download step (app/services/youtube.py, absent from the sources):
the short tier processes 12.5 percent of the full duration, the medium tier
40 percent, the full tier all of it. -/
def tierFraction : String → ℚ
  | "short" => 125 / 1000
  | "medium" => 40 / 100
  | _ => 1

/-- C7: the short tier's duration bound is 12.5 percent of the source (a
40-minute source is bounded to 5 minutes), but the percentage-of-video
label PricingCards renders for the short tier is the string 12 percent,
not the 12.5 percent fraction the tier actually applies. -/
theorem tier_short_label_mismatch :
    tierFraction "short" * 40 = 5 ∧
      tierPercent "short" = "12%" ∧
      tierPercent "short" ≠ "12.5%" := by
  refine ⟨by norm_num [tierFraction], rfl, by decide⟩

/-! Section: API client (src/unnamed/part_001, createJob)

Direct translation of the createJob call of the API client.  The HTTP
response is modelled by its ok flag, status code, and the two possible
parses of its JSON body: as an error body on the failure path (none when
parsing fails, which the code catches and replaces with an empty object)
and as a job snapshot on the success path. -/

/-- The job snapshot returned by the backend, mirroring the JobResponse
interface. -/
structure JobResponse where
  job_id : String
  status : String
  progress_pct : Int
  current_stage : String
  error : Option String
deriving DecidableEq

/-- The error body a non-ok response may carry: optional message and detail
fields (absent fields are none, as in the empty-object fallback). -/
structure ErrBody where
  message : Option String
  detail : Option String
deriving DecidableEq

/-- A backend HTTP response as observed by createJob. -/
structure HttpResponse where
  ok : Bool
  status : Nat
  errBody : Option ErrBody
  jobBody : Option JobResponse
deriving DecidableEq

/-- The error message createJob throws for a non-ok response:
err.message or err.detail or the fallback text carrying the status code,
with JavaScript falsy-or semantics. -/
def createJobMessage (r : HttpResponse) : String :=
  let eb := r.errBody.getD ⟨none, none⟩
  jsOr eb.message (jsOr eb.detail ("Job creation failed (" ++ toString r.status ++ ")"))

/-- Translation of createJob: on an ok response the parsed job snapshot is
returned (an ok body that fails to parse rejects with the parser's own
error); on a non-ok response the error-body message is thrown and no value
is returned. -/
def createJob (r : HttpResponse) : Except String JobResponse :=
  if r.ok then
    match r.jobBody with
    | some j => .ok j
    | none => .error "Unexpected end of JSON input"
  else .error (createJobMessage r)

theorem jsOr_truthy (v : Option String) (d m : String) (hv : v = some m)
    (hm : m ≠ "") : jsOr v d = m := by
  subst hv
  simp [jsOr, hm]

theorem jsOr_falsy (v : Option String) (d : String) (h : v.getD "" = "") :
    jsOr v d = d := by
  cases v with
  | none => rfl
  | some s =>
    simp only [Option.getD] at h
    simp [jsOr, h]

/-- C8: createJob returns the parsed job snapshot exactly when the response
is ok; for every non-ok response it throws (never returns a value) and the
thrown message is the backend's message field when truthy, else the detail
field when truthy, else the fallback text carrying the status code. -/
theorem createJob_ok_and_error (r : HttpResponse) :
    (∀ j, r.ok = true → r.jobBody = some j → createJob r = Except.ok j) ∧
      (r.ok = false → ∀ j, createJob r ≠ Except.ok j) ∧
      (r.ok = false → ∀ m, (r.errBody.getD ⟨none, none⟩).message = some m →
        m ≠ "" → createJob r = Except.error m) ∧
      (r.ok = false → ∀ d, (r.errBody.getD ⟨none, none⟩).message.getD "" = "" →
        (r.errBody.getD ⟨none, none⟩).detail = some d → d ≠ "" →
        createJob r = Except.error d) ∧
      (r.ok = false → (r.errBody.getD ⟨none, none⟩).message.getD "" = "" →
        (r.errBody.getD ⟨none, none⟩).detail.getD "" = "" →
        createJob r = Except.error ("Job creation failed (" ++ toString r.status ++ ")")) := by
  refine ⟨?_, ?_, ?_, ?_, ?_⟩
  · intro j hok hbody
    simp [createJob, hok, hbody]
  · intro hnok j
    simp [createJob, hnok]
  · intro hnok m hm hm2
    simp only [createJob, hnok, Bool.false_eq_true, if_false]
    rw [createJobMessage]
    rw [jsOr_truthy _ _ m hm hm2]
  · intro hnok d hmf hd hd2
    simp only [createJob, hnok, Bool.false_eq_true, if_false]
    rw [createJobMessage]
    rw [jsOr_falsy _ _ hmf, jsOr_truthy _ _ d hd hd2]
  · intro hnok hmf hdf
    simp only [createJob, hnok, Bool.false_eq_true, if_false]
    rw [createJobMessage]
    rw [jsOr_falsy _ _ hmf, jsOr_falsy _ _ hdf]

/-- Witness for createJob_ok_and_error: an ok response returning its parsed
snapshot, and a non-ok response throwing the backend detail message. -/
theorem createJob_ok_and_error_witness :
    createJob ⟨true, 200, none, some ⟨"j1", "queued", 0, "Queued", none⟩⟩ =
        Except.ok ⟨"j1", "queued", 0, "Queued", none⟩ ∧
      createJob ⟨false, 422, some ⟨none, some "bad tier"⟩, none⟩ =
        Except.error "bad tier" :=
  ⟨(createJob_ok_and_error _).1 _ rfl rfl,
    (createJob_ok_and_error _).2.2.2.1 rfl "bad tier" rfl rfl (by decide)⟩

/-! Section: Index page state machine (src/ui/src/pages/Index.tsx)

Direct translation of the Index page's React state and its handlers.  An
event fires only when the element carrying its handler is rendered, so
each transition is guarded by the rendering condition of its source
element. -/

/-- Video metadata of an analyze response, mirroring the VideoInfo
interface. -/
structure VideoInfo where
  title : String
  channel : String
  duration_seconds : ℚ
  thumbnail_url : String
deriving DecidableEq

/-- An analyze response: video info plus the three tier costs. -/
structure AnalyzeResponse where
  video : VideoInfo
  tiers : List TierCost
deriving DecidableEq

/-- The checkout option selected from the pricing cards. -/
structure CheckoutOption where
  tier : String
  name : String
  total : String
deriving DecidableEq

/-- The page phases of Index. -/
inductive AppPhase
  | input
  | checkout
  | player
deriving DecidableEq

/-- The React state of the Index page (the analyzing flag is transient
within one handler and is not part of the step relation). -/
structure IndexState where
  url : String
  selectedLang : Option String
  videoData : Option AnalyzeResponse
  analyzeError : Option String
  phase : AppPhase
  checkoutOption : Option CheckoutOption
  jobId : Option String
  jobError : Option String
deriving DecidableEq

/-- Translation of the YOUTUBE_REGEX test: an optional scheme, an optional
www prefix, then one of the three recognised YouTube path shapes as a
prefix of the rest. -/
def isValidUrl (u : String) : Bool :=
  let cs := u.toList
  let s1 :=
    if ("https://".toList).isPrefixOf cs then cs.drop 8
    else if ("http://".toList).isPrefixOf cs then cs.drop 7
    else cs
  let s2 := if ("www.".toList).isPrefixOf s1 then s1.drop 4 else s1
  ("youtube.com/watch?v=".toList).isPrefixOf s2 ||
    ("youtu.be/".toList).isPrefixOf s2 ||
    ("youtube.com/shorts/".toList).isPrefixOf s2

/-- The events the page can process: typing a url, clearing the centre,
clicking a language (carrying the analyze call's result), selecting a
pricing option, cancelling checkout, the payment-success handler (carrying
the createJob call's result), and the reset from the player. -/
inductive IndexEvent
  | setUrl (v : String)
  | clearCenter
  | languageClick (code : String) (result : Except String AnalyzeResponse)
  | pricingSelect (opt : CheckoutOption)
  | checkoutCancel
  | paymentOutcome (result : Except String JobResponse)
  | reset

/-- The initial state of the Index page. -/
def initIndex : IndexState := ⟨"", none, none, none, .input, none, none, none⟩

/-- Translation of the Index handlers.  The url input and the thumbnail
live in the centre widget, which shows the player instead while the phase
is player; the language buttons render only in the input phase; the
pricing cards render only when showPricing holds (input phase with video
data and a selected language); the checkout modal renders only in the
checkout phase with a checkout option; the reset button lives in the
player.  handlePaymentSuccess returns early unless a checkout option and a
language are present; on createJob success it stores the job id, enters
the player phase and clears the checkout option; on rejection it stores
the error, returns to the input phase and clears the checkout option. -/
def indexStep (s : IndexState) (e : IndexEvent) : IndexState :=
  match e with
  | .setUrl v =>
    if s.phase = .player then s
    else { s with
            url := v,
            videoData := none,
            selectedLang := none,
            analyzeError := none }
  | .clearCenter =>
    if s.phase = .player then s
    else { s with
            url := "",
            videoData := none,
            selectedLang := none,
            analyzeError := none }
  | .languageClick code result =>
    if s.phase = .input then
      let s1 := { s with
                   selectedLang := some code,
                   videoData := none,
                   analyzeError := none }
      if isValidUrl s.url then
        match result with
        | .ok r => { s1 with videoData := some r }
        | .error msg => { s1 with analyzeError := some msg }
      else s1
    else s
  | .pricingSelect opt =>
    if s.phase = .input ∧ s.videoData ≠ none ∧ s.selectedLang ≠ none then
      { s with checkoutOption := some opt, phase := .checkout }
    else s
  | .checkoutCancel =>
    if s.phase = .checkout ∧ s.checkoutOption ≠ none then
      { s with phase := .input }
    else s
  | .paymentOutcome result =>
    if s.phase = .checkout ∧ s.checkoutOption ≠ none then
      if s.checkoutOption ≠ none ∧ s.selectedLang ≠ none then
        match result with
        | .ok job =>
          { s with
              jobError := none,
              jobId := some job.job_id,
              phase := .player,
              checkoutOption := none }
        | .error m =>
          { s with
              jobError := some m,
              phase := .input,
              checkoutOption := none }
      else s
    else s
  | .reset =>
    if s.phase = .player ∧ s.jobId ≠ none then initIndex else s

/-- The state reached from the initial state by a sequence of events. -/
def runIndex (evs : List IndexEvent) : IndexState := evs.foldl indexStep initIndex

/-- The inductive invariant of the page: the player phase always holds a
job id, any other phase holds none, and the checkout phase always holds a
checkout option. -/
def IndexInv (s : IndexState) : Prop :=
  (s.phase = .player → s.jobId ≠ none) ∧
    (s.phase ≠ .player → s.jobId = none) ∧
    (s.phase = .checkout → s.checkoutOption ≠ none)

theorem indexStep_inv (s : IndexState) (e : IndexEvent) (h : IndexInv s) :
    IndexInv (indexStep s e) := by
  obtain ⟨h1, h2, h3⟩ := h
  unfold IndexInv
  cases e <;>
    simp only [indexStep] <;>
    (repeat' split) <;>
    first
      | exact ⟨h1, h2, h3⟩
      | (refine ⟨?_, ?_, ?_⟩ <;> intro hx <;> simp_all [initIndex])

theorem foldl_index_inv :
    ∀ (evs : List IndexEvent) (s : IndexState),
      IndexInv s → IndexInv (evs.foldl indexStep s) := by
  intro evs
  induction evs with
  | nil => intro s hs; exact hs
  | cons e rest ih => intro s hs; exact ih _ (indexStep_inv s e hs)

theorem initIndex_inv : IndexInv initIndex :=
  ⟨fun h => absurd h (by decide), fun _ => rfl, fun h => absurd h (by decide)⟩

/-- C9: in every state the Index page can reach, the player phase implies a
non-null job id; and whenever the page is in checkout (with the language
the payment handler requires) and createJob rejects, the page returns to
the input phase with the checkout option cleared and the job id still
null. -/
theorem index_player_has_job (evs : List IndexEvent) :
    ((runIndex evs).phase = .player → (runIndex evs).jobId ≠ none) ∧
      (∀ m, (runIndex evs).phase = .checkout →
        (runIndex evs).selectedLang ≠ none →
        ((indexStep (runIndex evs) (.paymentOutcome (.error m))).phase = .input ∧
          (indexStep (runIndex evs) (.paymentOutcome (.error m))).checkoutOption
            = none ∧
          (indexStep (runIndex evs) (.paymentOutcome (.error m))).jobId = none)) := by
  have hinv : IndexInv (runIndex evs) := foldl_index_inv evs initIndex initIndex_inv
  obtain ⟨h1, h2, h3⟩ := hinv
  refine ⟨h1, ?_⟩
  intro m hck hlang
  have hopt := h3 hck
  have hjob : (runIndex evs).jobId = none := h2 (by rw [hck]; decide)
  simp only [indexStep]
  rw [if_pos ⟨hck, hopt⟩, if_pos ⟨hopt, hlang⟩]
  exact ⟨rfl, rfl, hjob⟩

/-- Events driving the page from the initial state into checkout. -/
def checkoutEvts : List IndexEvent :=
  [.setUrl "https://youtu.be/dQw4w9WgXcQ",
   .languageClick "es" (.ok ⟨⟨"T", "C", 0, "U"⟩, []⟩),
   .pricingSelect ⟨"short", "Short", "$1.00"⟩]

/-- Events driving the page from the initial state into the player. -/
def playerEvts : List IndexEvent :=
  checkoutEvts ++ [.paymentOutcome (.ok ⟨"job-1", "queued", 0, "Queued", none⟩)]

/-- Witness for index_player_has_job: a concrete run reaching the player
carries a job id, and a concrete createJob rejection from checkout returns
to input with the option cleared and the job id null. -/
theorem index_player_has_job_witness :
    (runIndex playerEvts).jobId ≠ none ∧
      ((indexStep (runIndex checkoutEvts) (.paymentOutcome (.error "boom"))).phase
          = .input ∧
        (indexStep (runIndex checkoutEvts)
            (.paymentOutcome (.error "boom"))).checkoutOption = none ∧
        (indexStep (runIndex checkoutEvts)
            (.paymentOutcome (.error "boom"))).jobId = none) :=
  ⟨(index_player_has_job playerEvts).1 (by decide),
    (index_player_has_job checkoutEvts).2 "boom" (by decide) (by decide)⟩

end MasterPi
